import Mathlib

/-
  Verification development for the HeartSpo2 sensor-node firmware
  (iot/firmware/HeartSpo2.ino).

  Shallow embedding conventions:
  - `float` arithmetic is modelled by exact rationals (the real-valued
    semantics of the formulas in the source).
  - `millis()` values are naturals; the firmware subtracts them as
    unsigned 32-bit integers, modelled by `sub32`.
  - `Time.now()` epoch values and record timestamps are 32-bit on this
    target (`time_t` and `uint32_t`); the age check at line 244
    subtracts `time_t` minus `uint32_t`, which the usual arithmetic
    conversions perform as wrapping unsigned 32-bit subtraction, so it
    too is modelled by `sub32` on the unsigned representatives: a
    record time-stamped after `now` wraps to a huge age and is dropped.
  - One iteration of the sampling `while` loop is a `Poll`: the elapsed
    time `millis() - start` observed in that iteration, and the two raw
    channel values read from the sensor.
  - The EEPROM region holding records is modelled as a function from
    slot index to `Record` together with the persisted count; slot `i`
    lives at byte offset `EEPROM_START + i * RECORD_SIZE`, so indexing
    by `i` is faithful to the address arithmetic.
-/

namespace HeartSpo2

-- ===== configuration constants (lines 11-19 of HeartSpo2.ino) =====

/-- DEFAULT_MEASUREMENT_INTERVAL = 0.1 * 60 * 1000 ms. -/
def DEFAULT_MEASUREMENT_INTERVAL : Nat := 6000

/-- REQUEST_TIMEOUT = 5 * 60 * 1000 ms. -/
def REQUEST_TIMEOUT : Nat := 300000

def MAX_RECORDS : Nat := 300

def FINGER_THRESHOLD : Int := 10000

/-- SAMPLE_TIME, local constant of takeStableMeasurement (line 181). -/
def SAMPLE_TIME : Nat := 15000

/-- DISCARD_TIME, local constant of takeStableMeasurement (line 182). -/
def DISCARD_TIME : Nat := 5000

/-- The literal 0.0006862121 used at line 199, as an exact rational. -/
def HR_SCALE : ℚ := 6862121 / 10000000000

/-- The replay age bound 86400 s used at line 244. -/
def MAX_AGE : Nat := 86400

/-- Unsigned 32-bit subtraction `a - b`, as computed by the firmware on
`unsigned long` millisecond counters (correct for `a, b < 2^32`). -/
def sub32 (a b : Nat) : Nat := (a + 2 ^ 32 - b) % 2 ^ 32

-- ===== calculateSpO2 (lines 285-295) =====

/-- `calculateSpO2(long ir, long red)`: guard for `ir == 0`, then
`110 - 25 * (red / ir)`, clamped first above at 100 then below at 70. -/
def calculateSpO2 (ir red : Int) : ℚ :=
  if ir = 0 then 0
  else
    let R : ℚ := (red : ℚ) / (ir : ℚ)
    let s0 : ℚ := 110 - 25 * R
    let s1 : ℚ := if s0 > 100 then 100 else s0
    let s2 : ℚ := if s1 < 70 then 70 else s1
    s2

-- ===== takeStableMeasurement (lines 179-212) =====

/-- One iteration of the sampling loop: `t` is the elapsed time
`millis() - start` observed in that iteration, `ir`/`red` the channel
values read by `getIR()`/`getRed()`. -/
structure Poll where
  t : Nat
  ir : Int
  red : Int
deriving DecidableEq, Repr

/-- The code after the `while` loop (lines 207-211): fewer than 10
accumulated samples fails, otherwise the averages are returned. -/
def measureFinish (count : Nat) (hrSum spo2Sum : ℚ) : Option (ℚ × ℚ) :=
  if count < 10 then none
  else some (hrSum / (count : ℚ), spo2Sum / (count : ℚ))

/-- The `while (millis() - start < SAMPLE_TIME)` loop (lines 189-205).
The list holds the successive polls; the loop exits when the elapsed
time reaches SAMPLE_TIME (or no further poll occurs). An in-window poll
with `ir < FINGER_THRESHOLD || red < FINGER_THRESHOLD` returns false
(abort); a poll with elapsed time `> DISCARD_TIME` is accumulated. -/
def measureLoop : List Poll → Nat → ℚ → ℚ → Option (ℚ × ℚ)
  | [], count, hrSum, spo2Sum => measureFinish count hrSum spo2Sum
  | p :: ps, count, hrSum, spo2Sum =>
    if p.t < SAMPLE_TIME then
      if p.ir < FINGER_THRESHOLD ∨ p.red < FINGER_THRESHOLD then
        none
      else if p.t > DISCARD_TIME then
        measureLoop ps (count + 1) (hrSum + (p.ir : ℚ) * HR_SCALE)
          (spo2Sum + calculateSpO2 p.ir p.red)
      else
        measureLoop ps count hrSum spo2Sum
    else
      measureFinish count hrSum spo2Sum

/-- `takeStableMeasurement`: returns `some (hr, spo2)` when the function
returns true with outputs `hr`, `spo2`, and `none` when it returns false. -/
def takeStableMeasurement (polls : List Poll) : Option (ℚ × ℚ) :=
  measureLoop polls 0 0 0

-- ===== EEPROM record store (lines 39-44, 217-259) =====

/-- `struct Record` (lines 39-42): capture timestamp (a `uint32_t`,
held as its unsigned value) and the payload text (at most 23 characters
fit in the 24-byte field after `toCharArray`). -/
structure Record where
  timestamp : Nat
  payload : String
deriving DecidableEq, Repr

/-- The persisted store: the count kept at EEPROM_COUNT_ADDR and the
record slots, slot `i` at `EEPROM_START + i * RECORD_SIZE`. -/
structure Store where
  count : Nat
  slots : Nat → Record

inductive AppendResult where
  | ok
  | full
deriving DecidableEq, Repr

/-- `storeRecord` (lines 217-234): when the buffer holds MAX_RECORDS or
more the record is dropped (the `[EEPROM] Buffer full` early return,
`full` here); otherwise the record is written at slot `recordCount`,
the count incremented and persisted. -/
def storeRecord (s : Store) (now : Nat) (payload : String) : Store × AppendResult :=
  if s.count ≥ MAX_RECORDS then
    (s, .full)
  else
    ({ count := s.count + 1,
       slots := fun i => if i = s.count then ⟨now, payload.take 23⟩ else s.slots i },
     .ok)

/-- The `for` loop of `flushStoredRecords` (lines 240-253), from index
`i` up to `cnt`: each record young enough (`Time.now() - r.timestamp <=
86400`, computed by the C conversions as wrapping unsigned 32-bit
subtraction, here `sub32`) is published, others are dropped with a log
line only. Returns the payloads published, in iteration order. -/
def flushFrom (slots : Nat → Record) (cnt : Nat) (now : Nat) (i : Nat) : List String :=
  if i < cnt then
    (if sub32 now (slots i).timestamp ≤ MAX_AGE then [(slots i).payload] else [])
      ++ flushFrom slots cnt now (i + 1)
  else
    []
termination_by cnt - i
decreasing_by omega

/-- `flushStoredRecords` (lines 236-259): replay the loop, then reset
`recordCount` to 0 and persist it, unconditionally. -/
def flushStoredRecords (s : Store) (now : Nat) : Store × List String :=
  ({ s with count := 0 }, flushFrom s.slots s.count now 0)

-- ===== payload formatting (line 159) =====

/-- Decimal digits of a natural number, most significant first. -/
def natDigits (n : Nat) : List Char :=
  if _h : n < 10 then [Nat.digitChar n]
  else natDigits (n / 10) ++ [Nat.digitChar (n % 10)]
decreasing_by exact Nat.div_lt_self (by omega) (by omega)

/-- `String(x, 1)`: render a value with one decimal place. The firmware
library rounds half away from zero on the magnitude; for the nonnegative
values produced by the firmware this is `round (x * 10)` split into
integer part and one fractional digit. -/
def fmt1 (x : ℚ) : String :=
  let n : Int := round (x * 10)
  let m : Nat := n.natAbs
  (if n < 0 then "-" else "")
    ++ String.mk (natDigits (m / 10) ++ ['.', Nat.digitChar (m % 10)])

/-- Line 159: `String(hr, 1) + "," + String(spo2, 1)`. -/
def makePayload (hr spo2 : ℚ) : String :=
  fmt1 hr ++ "," ++ fmt1 spo2

-- ===== session state machine (lines 26-44, 107-174, 264-268) =====

/-- `enum DeviceState` (lines 26-31). -/
inductive DeviceState where
  | IDLE
  | REQUESTING
  | MEASURING
  | WAITING_CONFIRMATION
deriving DecidableEq, Repr

/-- The mutable globals of the firmware (lines 33-44). -/
structure Machine where
  state : DeviceState
  lastMeasurementTime : Nat
  requestStartTime : Nat
  measurementInterval : Nat
  store : Store

/-- Environment observed during one `loop()` iteration: `now` is the
`millis()` value at the scheduling and requesting checks, `nowAfter`
the `millis()` value at line 163 after the blocking sampling window,
`ir`/`red` the sensor read of lines 138-139, `polls` the sampling polls
of `takeStableMeasurement`, `epochNow` the `Time.now()` epoch value (as
its unsigned 32-bit representative). -/
structure TickInput where
  now : Nat
  nowAfter : Nat
  connected : Bool
  ir : Int
  red : Int
  polls : List Poll
  epochNow : Nat

/-- Lines 112-114: replay stored data when online. -/
def replayPhase (m : Machine) (i : TickInput) : Machine :=
  if i.connected = true ∧ m.store.count > 0 then
    { m with store := (flushStoredRecords m.store i.epochNow).1 }
  else m

/-- Lines 119-123 together with `requestMeasurement` (lines 264-268). -/
def schedulePhase (m : Machine) (i : TickInput) : Machine :=
  if m.state = .IDLE ∧ sub32 i.now m.lastMeasurementTime ≥ m.measurementInterval then
    { m with state := .REQUESTING, requestStartTime := i.now }
  else m

/-- The condition of line 141: both channels strictly above the
threshold. -/
def fingerPresent (ir red : Int) : Bool :=
  ir > FINGER_THRESHOLD && red > FINGER_THRESHOLD

/-- Lines 128-144: in `REQUESTING`, first the timeout check (which may
set the state back to `IDLE`), then unconditionally a sensor read whose
finger check may set the state to `MEASURING`. -/
def requestingPhase (m : Machine) (i : TickInput) : Machine :=
  if m.state = .REQUESTING then
    let m1 := if sub32 i.now m.requestStartTime ≥ REQUEST_TIMEOUT then
                { m with state := .IDLE }
              else m
    if fingerPresent i.ir i.red then { m1 with state := .MEASURING } else m1
  else m

/-- Lines 149-173: in `MEASURING`, run the stabilized measurement; on
failure return to `IDLE`; on success record the time, then publish (going
to `WAITING_CONFIRMATION`) when connected, else store the record and
return to `IDLE`. -/
def measuringPhase (m : Machine) (i : TickInput) : Machine :=
  if m.state = .MEASURING then
    match takeStableMeasurement i.polls with
    | none => { m with state := .IDLE }
    | some (hr, spo2) =>
      let m1 := { m with lastMeasurementTime := i.nowAfter }
      if i.connected then
        { m1 with state := .WAITING_CONFIRMATION }
      else
        { m1 with state := .IDLE,
                  store := (storeRecord m1.store i.epochNow (makePayload hr spo2)).1 }
  else m

/-- One full iteration of `loop()` (lines 107-174): the four blocks run
in source order as independent `if` statements. -/
def tick (m : Machine) (i : TickInput) : Machine :=
  measuringPhase (requestingPhase (schedulePhase (replayPhase m i) i) i) i

/-- `handleWebhook` (lines 61-66): the confirmation event returns the
machine to `IDLE`. -/
def handleWebhook (m : Machine) : Machine :=
  { m with state := .IDLE }

-- ===== boot-time count recovery (lines 79-82) =====

/-- The `setup()` recovery of the persisted count: an out-of-range
stored value is replaced by 0. -/
def bootRecordCount (stored : Int) : Int :=
  if stored < 0 ∨ stored > (MAX_RECORDS : Int) then 0 else stored

-- ===== spec-side definitions, for comparison with the code =====

def clampQ (lo hi x : ℚ) : ℚ := max lo (min hi x)

/-- The estimator exactly as the specification words it: `0` for
`ir == 0`, otherwise `110 - 25 * (red / ir)` clamped to `[70, 100]`.
Stated from the spec to be compared with `calculateSpO2`. -/
def spec_estimate_spo2 (ir red : Int) : ℚ :=
  if ir = 0 then 0 else clampQ 70 100 (110 - 25 * ((red : ℚ) / (ir : ℚ)))

/-- The single-step transition relation of the specification (section
4.6): the pairs of states connected by exactly one arrow. Stated from
the spec to compare with what one `loop()` iteration can do. -/
def specTransition : DeviceState → DeviceState → Bool
  | .IDLE, .REQUESTING => true
  | .REQUESTING, .IDLE => true
  | .REQUESTING, .MEASURING => true
  | .MEASURING, .IDLE => true
  | .MEASURING, .WAITING_CONFIRMATION => true
  | .WAITING_CONFIRMATION, .IDLE => true
  | _, _ => false

/-- A sequence of appends, keeping only the store. -/
def appendAll (s : Store) (ops : List (Nat × String)) : Store :=
  ops.foldl (fun st op => (storeRecord st op.1 op.2).1) s

-- ===== concrete data used by counterexamples and witnesses =====

def emptyRecord : Record := ⟨0, ""⟩

def store0 : Store := ⟨0, fun _ => emptyRecord⟩

def storeFull : Store := ⟨MAX_RECORDS, fun _ => emptyRecord⟩

/-- Ten in-window post-discard polls with both channels at 20000. -/
def goodPolls : List Poll :=
  [⟨5001, 20000, 20000⟩, ⟨5002, 20000, 20000⟩, ⟨5003, 20000, 20000⟩,
   ⟨5004, 20000, 20000⟩, ⟨5005, 20000, 20000⟩, ⟨5006, 20000, 20000⟩,
   ⟨5007, 20000, 20000⟩, ⟨5008, 20000, 20000⟩, ⟨5009, 20000, 20000⟩,
   ⟨5010, 20000, 20000⟩]

/-- Ten in-window post-discard polls with both channels exactly at the
finger threshold 10000: `is_finger_present` is false on every one of
them, yet none satisfies the abort test `ir < 10000 || red < 10000`. -/
def thresholdPolls : List Poll :=
  [⟨5001, 10000, 10000⟩, ⟨5002, 10000, 10000⟩, ⟨5003, 10000, 10000⟩,
   ⟨5004, 10000, 10000⟩, ⟨5005, 10000, 10000⟩, ⟨5006, 10000, 10000⟩,
   ⟨5007, 10000, 10000⟩, ⟨5008, 10000, 10000⟩, ⟨5009, 10000, 10000⟩,
   ⟨5010, 10000, 10000⟩]

/-- A machine in `REQUESTING` with the last (successful) measurement at
millis 0 and the request started at millis 29000. -/
def reqMachine : Machine :=
  ⟨.REQUESTING, 0, 29000, DEFAULT_MEASUREMENT_INTERVAL, store0⟩

/-- Tick at millis 30000, offline, finger present, but the sampling
aborts at its very first poll (finger gone at once). -/
def abortInput : TickInput :=
  ⟨30000, 30000, false, 20000, 20000, [⟨0, 0, 0⟩], 0⟩

/-- Tick one millisecond later, offline, no finger. -/
def nextInput : TickInput :=
  ⟨30001, 30001, false, 0, 0, [], 0⟩

/-- A machine in `IDLE` whose measurement interval has fully elapsed at
millis 6000. -/
def idleMachine : Machine :=
  ⟨.IDLE, 0, 0, DEFAULT_MEASUREMENT_INTERVAL, store0⟩

/-- Tick at millis 6000, online, finger present, with a full clean
sampling window. -/
def cascadeInput : TickInput :=
  ⟨6000, 21000, true, 20000, 20000, goodPolls, 0⟩

/-- A machine in `REQUESTING` whose request started at millis 0. -/
def timeoutMachine : Machine :=
  ⟨.REQUESTING, 0, 0, DEFAULT_MEASUREMENT_INTERVAL, store0⟩

/-- Tick at exactly the request timeout, online, finger present on the
read that follows the timeout handling, clean sampling window. -/
def timeoutInput : TickInput :=
  ⟨REQUEST_TIMEOUT, 315000, true, 20000, 20000, goodPolls, 0⟩

-- =====================================================
-- THEOREMS
-- =====================================================

-- ===== helper lemmas =====

lemma storeRecord_count_le (s : Store) (now : Nat) (p : String)
    (h : s.count ≤ MAX_RECORDS) :
    ((storeRecord s now p).1).count ≤ MAX_RECORDS := by
  unfold storeRecord
  split
  · exact h
  · rename_i hlt
    have : s.count < MAX_RECORDS := by omega
    show s.count + 1 ≤ MAX_RECORDS
    omega

lemma appendAll_count_le (ops : List (Nat × String)) :
    ∀ s : Store, s.count ≤ MAX_RECORDS → (appendAll s ops).count ≤ MAX_RECORDS := by
  induction ops with
  | nil => intro s h; exact h
  | cons op ops ih =>
    intro s h
    simp only [appendAll, List.foldl_cons] at ih ⊢
    exact ih _ (storeRecord_count_le s op.1 op.2 h)

lemma flushFrom_eq (slots : Nat → Record) (now : Nat) :
    ∀ (k i cnt : Nat), cnt - i = k →
      flushFrom slots cnt now i =
        (((List.range k).map (fun j => slots (i + j))).filter
            (fun r => decide (sub32 now r.timestamp ≤ MAX_AGE))).map Record.payload := by
  intro k
  induction k with
  | zero =>
    intro i cnt hk
    rw [flushFrom]
    have hn : ¬ i < cnt := by omega
    simp [hn]
  | succ k ih =>
    intro i cnt hk
    have hic : i < cnt := by omega
    have hcomp : ((fun j => slots (i + j)) ∘ Nat.succ) = fun j => slots ((i + 1) + j) := by
      funext j
      show slots (i + Nat.succ j) = slots ((i + 1) + j)
      congr 1
      omega
    rw [flushFrom, if_pos hic, List.range_succ_eq_map, List.map_cons, List.map_map, hcomp,
      Nat.add_zero, List.filter_cons, ih (i + 1) cnt (by omega)]
    by_cases hage : sub32 now (slots i).timestamp ≤ MAX_AGE
    · rw [if_pos hage, if_pos (by simpa using hage), List.map_cons, List.singleton_append]
      simp only [Nat.add_zero]
    · rw [if_neg hage, if_neg (by simpa using hage), List.nil_append]

-- ===== C1 =====

/-- Claim C1: `storeRecord` never pushes the persisted count beyond
MAX_RECORDS; invoked at capacity it takes the full branch and leaves the
store (count and all slots) unchanged; invoked below capacity it writes
the record at slot `count` and increments the count, so the count stays
within `0..MAX_RECORDS` after every append and after every sequence of
appends. -/
theorem storeRecord_append_spec (s : Store) (now : Nat) (p : String)
    (hle : s.count ≤ MAX_RECORDS) :
    (s.count = MAX_RECORDS → storeRecord s now p = (s, AppendResult.full)) ∧
    (s.count < MAX_RECORDS →
      (storeRecord s now p).2 = AppendResult.ok ∧
      (storeRecord s now p).1.count = s.count + 1 ∧
      (storeRecord s now p).1.slots s.count = ⟨now, p.take 23⟩ ∧
      (∀ j, j ≠ s.count → (storeRecord s now p).1.slots j = s.slots j)) ∧
    (storeRecord s now p).1.count ≤ MAX_RECORDS ∧
    (∀ ops : List (Nat × String), (appendAll s ops).count ≤ MAX_RECORDS) := by
  refine ⟨?_, ?_, storeRecord_count_le s now p hle,
    fun ops => appendAll_count_le ops s hle⟩
  · intro heq
    have hge : s.count ≥ MAX_RECORDS := by omega
    simp [storeRecord, hge]
  · intro hlt
    have hn : ¬ s.count ≥ MAX_RECORDS := by omega
    exact ⟨by simp [storeRecord, hn], by simp [storeRecord, hn],
      by simp [storeRecord, hn], fun j hj => by simp [storeRecord, hn, hj]⟩

/-- Witness for C1 at a full store. -/
theorem storeRecord_append_spec_witness :
    storeFull.count ≤ MAX_RECORDS ∧
    ((storeFull.count = MAX_RECORDS →
        storeRecord storeFull 5 "75.0,98.5" = (storeFull, AppendResult.full)) ∧
     (storeFull.count < MAX_RECORDS →
        (storeRecord storeFull 5 "75.0,98.5").2 = AppendResult.ok ∧
        (storeRecord storeFull 5 "75.0,98.5").1.count = storeFull.count + 1 ∧
        (storeRecord storeFull 5 "75.0,98.5").1.slots storeFull.count =
          ⟨5, ("75.0,98.5" : String).take 23⟩ ∧
        (∀ j, j ≠ storeFull.count →
          (storeRecord storeFull 5 "75.0,98.5").1.slots j = storeFull.slots j)) ∧
     (storeRecord storeFull 5 "75.0,98.5").1.count ≤ MAX_RECORDS ∧
     (∀ ops : List (Nat × String), (appendAll storeFull ops).count ≤ MAX_RECORDS)) :=
  ⟨by decide, storeRecord_append_spec storeFull 5 "75.0,98.5" (by decide)⟩

-- ===== C2 =====

/-- Claim C2: `flushStoredRecords` walks the slots in insertion order
`0..count-1`, publishes exactly the records whose age `now - timestamp`
is at most MAX_AGE (skipping the others), and afterwards resets the
persisted count to 0 unconditionally, leaving the slot contents alone. -/
theorem flushStoredRecords_spec (s : Store) (now : Nat) :
    (flushStoredRecords s now).1.count = 0 ∧
    (flushStoredRecords s now).1.slots = s.slots ∧
    (flushStoredRecords s now).2 =
      (((List.range s.count).map s.slots).filter
          (fun r => decide (sub32 now r.timestamp ≤ MAX_AGE))).map Record.payload := by
  refine ⟨rfl, rfl, ?_⟩
  have h := flushFrom_eq s.slots now s.count 0 s.count (by omega)
  simpa [flushStoredRecords, Nat.zero_add] using h

-- ===== C6 =====

/-- Claim C6: `calculateSpO2` coincides with the reference estimator of
the spec — 0 when `ir = 0`, otherwise `110 - 25 * (red / ir)` clamped to
`[70, 100]` — so for every `ir > 0` its value lies in `[70, 100]`. -/
theorem calculateSpO2_spec (ir red : Int) :
    calculateSpO2 ir red = spec_estimate_spo2 ir red ∧
    calculateSpO2 0 red = 0 ∧
    (0 < ir → 70 ≤ calculateSpO2 ir red ∧ calculateSpO2 ir red ≤ 100) := by
  have key : calculateSpO2 ir red = spec_estimate_spo2 ir red := by
    by_cases h0 : ir = 0
    · simp [calculateSpO2, spec_estimate_spo2, h0]
    · simp only [calculateSpO2, spec_estimate_spo2, clampQ, h0, if_false, min_def, max_def]
      split_ifs <;> first | rfl | linarith
  refine ⟨key, by simp [calculateSpO2], fun hpos => ?_⟩
  rw [key]
  unfold spec_estimate_spo2 clampQ
  have h0 : ¬ ir = 0 := by omega
  rw [if_neg h0]
  exact ⟨le_max_left _ _, max_le (by norm_num) (min_le_left _ _)⟩

/-- Witness for C6 at `ir = 2`, `red = 1`. -/
theorem calculateSpO2_spec_witness :
    calculateSpO2 2 1 = spec_estimate_spo2 2 1 ∧
    calculateSpO2 0 1 = 0 ∧
    ((0 : Int) < 2 → 70 ≤ calculateSpO2 2 1 ∧ calculateSpO2 2 1 ≤ 100) :=
  calculateSpO2_spec 2 1

-- ===== C8 =====

/-- Claim C8: at boot an out-of-range persisted count (negative or above
MAX_RECORDS) is replaced by 0, an in-range one is adopted unchanged, and
the adopted value always lies in `0..MAX_RECORDS`. -/
theorem bootRecordCount_spec (stored : Int) :
    ((stored < 0 ∨ stored > (MAX_RECORDS : Int)) → bootRecordCount stored = 0) ∧
    (0 ≤ stored → stored ≤ (MAX_RECORDS : Int) → bootRecordCount stored = stored) ∧
    0 ≤ bootRecordCount stored ∧ bootRecordCount stored ≤ (MAX_RECORDS : Int) := by
  simp only [bootRecordCount, MAX_RECORDS, Nat.cast_ofNat]
  split_ifs with h
  · refine ⟨fun _ => rfl, fun h1 h2 => ?_, by norm_num, by norm_num⟩
    rcases h with h | h <;> omega
  · push_neg at h
    refine ⟨fun h1 => ?_, fun _ _ => rfl, h.1, h.2⟩
    rcases h1 with h1 | h1 <;> omega

/-- Witness for C8 at the out-of-range stored value 301. -/
theorem bootRecordCount_spec_witness :
    (((301 : Int) < 0 ∨ (301 : Int) > (MAX_RECORDS : Int)) → bootRecordCount 301 = 0) ∧
    ((0 : Int) ≤ 301 → (301 : Int) ≤ (MAX_RECORDS : Int) → bootRecordCount 301 = 301) ∧
    0 ≤ bootRecordCount 301 ∧ bootRecordCount 301 ≤ (MAX_RECORDS : Int) :=
  bootRecordCount_spec 301

-- ===== measurement-loop lemmas =====

lemma measureLoop_clean (polls : List Poll) :
    ∀ (c : Nat) (h s : ℚ),
      (∀ p ∈ polls, p.t < SAMPLE_TIME) →
      (∀ p ∈ polls, FINGER_THRESHOLD ≤ p.ir ∧ FINGER_THRESHOLD ≤ p.red) →
      measureLoop polls c h s =
        (if c + (polls.filter (fun p => decide (DISCARD_TIME < p.t))).length < 10 then none
         else
           some
             ((h + ((polls.filter (fun p => decide (DISCARD_TIME < p.t))).map
                 (fun p => (p.ir : ℚ) * HR_SCALE)).sum) /
               ((c + (polls.filter (fun p => decide (DISCARD_TIME < p.t))).length : Nat) : ℚ),
              (s + ((polls.filter (fun p => decide (DISCARD_TIME < p.t))).map
                 (fun p => calculateSpO2 p.ir p.red)).sum) /
               ((c + (polls.filter (fun p => decide (DISCARD_TIME < p.t))).length : Nat) : ℚ))) := by
  induction polls with
  | nil =>
    intro c h s _ _
    simp [measureLoop, measureFinish]
  | cons p ps ih =>
    intro c h s hin hok
    have hpt : p.t < SAMPLE_TIME := hin p (by simp)
    have hpo := hok p (by simp)
    have hnab : ¬ (p.ir < FINGER_THRESHOLD ∨ p.red < FINGER_THRESHOLD) := by
      push_neg
      exact hpo
    rw [measureLoop, if_pos hpt, if_neg hnab]
    have hintl : ∀ q ∈ ps, q.t < SAMPLE_TIME := fun q hq => hin q (by simp [hq])
    have hoktl : ∀ q ∈ ps, FINGER_THRESHOLD ≤ q.ir ∧ FINGER_THRESHOLD ≤ q.red :=
      fun q hq => hok q (by simp [hq])
    by_cases hd : p.t > DISCARD_TIME
    · rw [if_pos hd, ih (c + 1) _ _ hintl hoktl,
        List.filter_cons_of_pos (by simpa using hd), List.length_cons, List.map_cons,
        List.sum_cons, List.map_cons, List.sum_cons]
      have hlen : c + 1 + (ps.filter (fun p => decide (DISCARD_TIME < p.t))).length =
          c + ((ps.filter (fun p => decide (DISCARD_TIME < p.t))).length + 1) := by
        omega
      rw [hlen, add_assoc, add_assoc]
    · rw [if_neg hd, ih c h s hintl hoktl,
        List.filter_cons_of_neg (by simpa using hd)]

lemma measureLoop_abort (polls : List Poll) :
    ∀ (c : Nat) (h s : ℚ),
      (∀ p ∈ polls, p.t < SAMPLE_TIME) →
      (∃ p ∈ polls, p.ir < FINGER_THRESHOLD ∨ p.red < FINGER_THRESHOLD) →
      measureLoop polls c h s = none := by
  induction polls with
  | nil =>
    intro c h s _ hex
    simp at hex
  | cons p ps ih =>
    intro c h s hin hex
    have hpt : p.t < SAMPLE_TIME := hin p (by simp)
    rw [measureLoop, if_pos hpt]
    by_cases hab : p.ir < FINGER_THRESHOLD ∨ p.red < FINGER_THRESHOLD
    · rw [if_pos hab]
    · rw [if_neg hab]
      have hex2 : ∃ q ∈ ps, q.ir < FINGER_THRESHOLD ∨ q.red < FINGER_THRESHOLD := by
        rcases hex with ⟨q, hq, hqc⟩
        rcases List.mem_cons.mp hq with rfl | hq2
        · exact absurd hqc hab
        · exact ⟨q, hq2, hqc⟩
      have hintl : ∀ q ∈ ps, q.t < SAMPLE_TIME := fun q hq => hin q (by simp [hq])
      by_cases hd : p.t > DISCARD_TIME
      · rw [if_pos hd]
        exact ih _ _ _ hintl hex2
      · rw [if_neg hd]
        exact ih _ _ _ hintl hex2

-- ===== machine-phase lemmas =====

lemma replayPhase_fields (m : Machine) (i : TickInput) :
    (replayPhase m i).state = m.state ∧
    (replayPhase m i).lastMeasurementTime = m.lastMeasurementTime ∧
    (replayPhase m i).requestStartTime = m.requestStartTime ∧
    (replayPhase m i).measurementInterval = m.measurementInterval := by
  unfold replayPhase
  split <;> exact ⟨rfl, rfl, rfl, rfl⟩

lemma schedulePhase_not_idle (m : Machine) (i : TickInput) (h : m.state ≠ .IDLE) :
    schedulePhase m i = m := by
  unfold schedulePhase
  rw [if_neg]
  intro hc
  exact h hc.1

lemma requestingPhase_finger (m : Machine) (i : TickInput)
    (hs : m.state = .REQUESTING) (hf : fingerPresent i.ir i.red = true) :
    (requestingPhase m i).state = .MEASURING := by
  simp [requestingPhase, hs, hf]

lemma measuringPhase_none (m : Machine) (i : TickInput)
    (hs : m.state = .MEASURING) (hn : takeStableMeasurement i.polls = none) :
    measuringPhase m i = { m with state := .IDLE } := by
  simp [measuringPhase, hs, hn]

-- ===== C7 =====

/-- Claim C7: over a sampling window with no abort, the measurement
returns a reading only when at least 10 post-discard samples were
accumulated, and that reading is exactly the pair of averages over the
polls taken after DISCARD_TIME; with fewer than 10 such samples it
fails. -/
theorem takeStableMeasurement_average_spec (polls : List Poll)
    (hin : ∀ p ∈ polls, p.t < SAMPLE_TIME)
    (hok : ∀ p ∈ polls, FINGER_THRESHOLD ≤ p.ir ∧ FINGER_THRESHOLD ≤ p.red) :
    takeStableMeasurement polls =
      (if (polls.filter (fun p => decide (DISCARD_TIME < p.t))).length < 10 then none
       else
         some
           ((((polls.filter (fun p => decide (DISCARD_TIME < p.t))).map
               (fun p => (p.ir : ℚ) * HR_SCALE)).sum) /
             (((polls.filter (fun p => decide (DISCARD_TIME < p.t))).length : Nat) : ℚ),
            (((polls.filter (fun p => decide (DISCARD_TIME < p.t))).map
               (fun p => calculateSpO2 p.ir p.red)).sum) /
             (((polls.filter (fun p => decide (DISCARD_TIME < p.t))).length : Nat) : ℚ))) := by
  have h := measureLoop_clean polls 0 0 0 hin hok
  simpa [takeStableMeasurement, Nat.zero_add, zero_add] using h

/-- Witness for C7 on ten clean post-discard polls. -/
theorem takeStableMeasurement_average_spec_witness :
    (∀ p ∈ goodPolls, p.t < SAMPLE_TIME) ∧
    (∀ p ∈ goodPolls, FINGER_THRESHOLD ≤ p.ir ∧ FINGER_THRESHOLD ≤ p.red) ∧
    takeStableMeasurement goodPolls =
      (if (goodPolls.filter (fun p => decide (DISCARD_TIME < p.t))).length < 10 then none
       else
         some
           ((((goodPolls.filter (fun p => decide (DISCARD_TIME < p.t))).map
               (fun p => (p.ir : ℚ) * HR_SCALE)).sum) /
             (((goodPolls.filter (fun p => decide (DISCARD_TIME < p.t))).length : Nat) : ℚ),
            (((goodPolls.filter (fun p => decide (DISCARD_TIME < p.t))).map
               (fun p => calculateSpO2 p.ir p.red)).sum) /
             (((goodPolls.filter (fun p => decide (DISCARD_TIME < p.t))).length : Nat) : ℚ))) :=
  ⟨by decide, by decide,
    takeStableMeasurement_average_spec goodPolls (by decide) (by decide)⟩

-- ===== C3 =====

/-- Counterexample to C3 as stated: on a window whose polls all sit
exactly at the finger threshold, `is_finger_present` is false at every
polled instant, yet the session does not abort — it produces a reading,
because the abort test of the sampling loop is `ir < 10000 || red <
10000`, strictly below the threshold. -/
theorem threshold_sample_no_abort_cex :
    (∀ p ∈ thresholdPolls, fingerPresent p.ir p.red = false) ∧
    (takeStableMeasurement thresholdPolls).isSome = true := by
  exact ⟨by decide, by decide⟩

/-- Claim C3 (amended): a measurement session aborts — returning no
reading, with the tick ending back in IDLE — exactly on a polled sample
with `ir < 10000` or `red < 10000` (strictly below the threshold); a
sample equal to the threshold does not abort. -/
theorem measuring_abort_below_threshold (m : Machine) (i : TickInput)
    (hin : ∀ p ∈ i.polls, p.t < SAMPLE_TIME)
    (hex : ∃ p ∈ i.polls, p.ir < FINGER_THRESHOLD ∨ p.red < FINGER_THRESHOLD)
    (hs : m.state = .REQUESTING)
    (hf : fingerPresent i.ir i.red = true) :
    takeStableMeasurement i.polls = none ∧ (tick m i).state = .IDLE := by
  have habort : takeStableMeasurement i.polls = none :=
    measureLoop_abort i.polls 0 0 0 hin hex
  refine ⟨habort, ?_⟩
  unfold tick
  have h1 := (replayPhase_fields m i).1
  have h2 : schedulePhase (replayPhase m i) i = replayPhase m i :=
    schedulePhase_not_idle _ i (by simp [h1, hs])
  rw [h2]
  have h3 : (requestingPhase (replayPhase m i) i).state = .MEASURING :=
    requestingPhase_finger _ i (by rw [h1, hs]) hf
  rw [measuringPhase_none _ i h3 habort]

/-- Witness for the amended C3: the first poll reads (0, 0), the session
aborts and the tick ends in IDLE. -/
theorem measuring_abort_below_threshold_witness :
    (∀ p ∈ abortInput.polls, p.t < SAMPLE_TIME) ∧
    (∃ p ∈ abortInput.polls, p.ir < FINGER_THRESHOLD ∨ p.red < FINGER_THRESHOLD) ∧
    reqMachine.state = .REQUESTING ∧
    fingerPresent abortInput.ir abortInput.red = true ∧
    (takeStableMeasurement abortInput.polls = none ∧ (tick reqMachine abortInput).state = .IDLE) :=
  ⟨by decide, by decide, rfl, by decide,
    measuring_abort_below_threshold reqMachine abortInput (by decide) (by decide) rfl (by decide)⟩

-- ===== further machine-phase lemmas =====

lemma schedulePhase_due (m : Machine) (i : TickInput)
    (hs : m.state = .IDLE)
    (hd : sub32 i.now m.lastMeasurementTime ≥ m.measurementInterval) :
    schedulePhase m i = { m with state := .REQUESTING, requestStartTime := i.now } := by
  unfold schedulePhase
  rw [if_pos ⟨hs, hd⟩]

lemma requestingPhase_no_finger_no_timeout (m : Machine) (i : TickInput)
    (hs : m.state = .REQUESTING)
    (hto : sub32 i.now m.requestStartTime < REQUEST_TIMEOUT)
    (hnf : fingerPresent i.ir i.red = false) :
    requestingPhase m i = m := by
  unfold requestingPhase
  rw [if_pos hs, if_neg (not_le.mpr hto)]
  simp [hnf]

lemma requestingPhase_fields (m : Machine) (i : TickInput) :
    (requestingPhase m i).lastMeasurementTime = m.lastMeasurementTime ∧
    (requestingPhase m i).measurementInterval = m.measurementInterval ∧
    (requestingPhase m i).store = m.store := by
  unfold requestingPhase
  split
  · split <;> split <;> exact ⟨rfl, rfl, rfl⟩
  · exact ⟨rfl, rfl, rfl⟩

lemma measuringPhase_some_online (m : Machine) (i : TickInput) (hr spo2 : ℚ)
    (hs : m.state = .MEASURING)
    (hm : takeStableMeasurement i.polls = some (hr, spo2))
    (hc : i.connected = true) :
    (measuringPhase m i).state = .WAITING_CONFIRMATION := by
  simp [measuringPhase, hs, hm, hc]

lemma measuringPhase_not_measuring (m : Machine) (i : TickInput)
    (hs : m.state ≠ .MEASURING) :
    measuringPhase m i = m := by
  unfold measuringPhase
  rw [if_neg hs]

-- ===== C4 =====

/-- Counterexample to C4 as stated: a tick whose measurement aborts
returns to IDLE without touching `lastMeasurementTime`; one millisecond
later — far less than MEASUREMENT_INTERVAL after the abort — the machine
re-enters REQUESTING. -/
theorem abort_immediate_rerequest_cex :
    (tick reqMachine abortInput).state = .IDLE ∧
    (tick reqMachine abortInput).lastMeasurementTime = reqMachine.lastMeasurementTime ∧
    (tick (tick reqMachine abortInput) nextInput).state = .REQUESTING ∧
    sub32 nextInput.now abortInput.now < reqMachine.measurementInterval := by
  exact ⟨by decide, by decide, by decide, by decide⟩

/-- Claim C4 (amended): an unstable abort leaves `lastMeasurementTime`
untouched, so the gate for the next attempt is measured from the last
successful measurement (or boot), not from the abort: any later tick
whose elapsed time since that old stamp reaches the interval re-enters
REQUESTING at once, regardless of how little time has passed since the
abort. -/
theorem abort_keeps_lastMeasurementTime (m : Machine) (i1 i2 : TickInput)
    (hs : m.state = .REQUESTING)
    (hf : fingerPresent i1.ir i1.red = true)
    (hab : takeStableMeasurement i1.polls = none)
    (hd2 : sub32 i2.now (tick m i1).lastMeasurementTime ≥ (tick m i1).measurementInterval)
    (hnf2 : fingerPresent i2.ir i2.red = false)
    (hto : sub32 i2.now i2.now < REQUEST_TIMEOUT) :
    (tick m i1).state = .IDLE ∧
    (tick m i1).lastMeasurementTime = m.lastMeasurementTime ∧
    (tick (tick m i1) i2).state = .REQUESTING := by
  obtain ⟨hr1, hr2, hr3, hr4⟩ := replayPhase_fields m i1
  have hsch : schedulePhase (replayPhase m i1) i1 = replayPhase m i1 :=
    schedulePhase_not_idle _ i1 (by simp [hr1, hs])
  have hreqst : (requestingPhase (replayPhase m i1) i1).state = .MEASURING :=
    requestingPhase_finger _ i1 (by rw [hr1, hs]) hf
  obtain ⟨hq1, hq2, hq3⟩ := requestingPhase_fields (replayPhase m i1) i1
  have htick1 : tick m i1 =
      { requestingPhase (replayPhase m i1) i1 with state := .IDLE } := by
    unfold tick
    rw [hsch, measuringPhase_none _ i1 hreqst hab]
  have hstate1 : (tick m i1).state = .IDLE := by rw [htick1]
  have hlast1 : (tick m i1).lastMeasurementTime = m.lastMeasurementTime := by
    rw [htick1]
    show (requestingPhase (replayPhase m i1) i1).lastMeasurementTime = m.lastMeasurementTime
    rw [hq1, hr2]
  refine ⟨hstate1, hlast1, ?_⟩
  obtain ⟨hp1, hp2, hp3, hp4⟩ := replayPhase_fields (tick m i1) i2
  have hsch2 : schedulePhase (replayPhase (tick m i1) i2) i2 =
      { replayPhase (tick m i1) i2 with state := .REQUESTING, requestStartTime := i2.now } :=
    schedulePhase_due _ i2 (by rw [hp1, hstate1]) (by rw [hp2, hp4]; exact hd2)
  have hreq2 : requestingPhase
      { replayPhase (tick m i1) i2 with state := .REQUESTING, requestStartTime := i2.now } i2 =
      { replayPhase (tick m i1) i2 with state := .REQUESTING, requestStartTime := i2.now } :=
    requestingPhase_no_finger_no_timeout _ i2 rfl hto hnf2
  show (measuringPhase (requestingPhase (schedulePhase (replayPhase (tick m i1) i2) i2) i2)
    i2).state = .REQUESTING
  rw [hsch2, hreq2, measuringPhase_not_measuring _ i2 (by simp)]

/-- Witness for the amended C4: abort at millis 30000, re-request at
millis 30001. -/
theorem abort_keeps_lastMeasurementTime_witness :
    reqMachine.state = .REQUESTING ∧
    fingerPresent abortInput.ir abortInput.red = true ∧
    takeStableMeasurement abortInput.polls = none ∧
    sub32 nextInput.now (tick reqMachine abortInput).lastMeasurementTime ≥
      (tick reqMachine abortInput).measurementInterval ∧
    fingerPresent nextInput.ir nextInput.red = false ∧
    sub32 nextInput.now nextInput.now < REQUEST_TIMEOUT ∧
    ((tick reqMachine abortInput).state = .IDLE ∧
     (tick reqMachine abortInput).lastMeasurementTime = reqMachine.lastMeasurementTime ∧
     (tick (tick reqMachine abortInput) nextInput).state = .REQUESTING) :=
  ⟨rfl, by decide, by decide, by decide, by decide, by decide,
    abort_keeps_lastMeasurementTime reqMachine abortInput nextInput rfl (by decide)
      (by decide) (by decide) (by decide) (by decide)⟩

-- ===== C5 =====

/-- Counterexample to C5 as stated: starting from IDLE, a single tick
ends in WAITING_CONFIRMATION, a state not reachable from IDLE by any
single transition of the specified state machine — the loop body chains
its state checks as independent ifs, so one iteration cascades through
Requesting and Measuring. -/
theorem tick_multiple_transitions_cex :
    idleMachine.state = .IDLE ∧
    (tick idleMachine cascadeInput).state = .WAITING_CONFIRMATION ∧
    specTransition .IDLE .WAITING_CONFIRMATION = false ∧
    DeviceState.IDLE ≠ DeviceState.WAITING_CONFIRMATION := by
  exact ⟨rfl, by decide, by decide, by decide⟩

/-- Claim C5 (amended): one loop iteration can perform several
cascaded transitions: from IDLE, with the interval elapsed, a finger
present and the cloud connected, a tick that samples a full clean
window runs Idle -> Requesting -> Measuring -> WaitingConfirmation
within the single iteration. -/
theorem tick_cascades_idle_to_waiting (m : Machine) (i : TickInput) (hr spo2 : ℚ)
    (hs : m.state = .IDLE)
    (hd : sub32 i.now m.lastMeasurementTime ≥ m.measurementInterval)
    (hf : fingerPresent i.ir i.red = true)
    (hc : i.connected = true)
    (hm : takeStableMeasurement i.polls = some (hr, spo2)) :
    (tick m i).state = .WAITING_CONFIRMATION := by
  obtain ⟨hr1, hr2, hr3, hr4⟩ := replayPhase_fields m i
  have hsch : schedulePhase (replayPhase m i) i =
      { replayPhase m i with state := .REQUESTING, requestStartTime := i.now } :=
    schedulePhase_due _ i (by rw [hr1, hs]) (by rw [hr2, hr4]; exact hd)
  have hreq : (requestingPhase
      { replayPhase m i with state := .REQUESTING, requestStartTime := i.now } i).state =
      .MEASURING :=
    requestingPhase_finger _ i rfl hf
  unfold tick
  rw [hsch]
  exact measuringPhase_some_online _ i hr spo2 hreq hm hc

-- ===== C10 =====

/-- Counterexample to C10 as stated: on the tick where the request
timeout fires and the finger is present on the same read, the tick does
not end in MEASURING — the measuring block runs within the same
iteration, so the tick ends in the measurement outcome state
(here WAITING_CONFIRMATION). -/
theorem requesting_timeout_tick_end_cex :
    timeoutMachine.state = .REQUESTING ∧
    sub32 timeoutInput.now timeoutMachine.requestStartTime ≥ REQUEST_TIMEOUT ∧
    fingerPresent timeoutInput.ir timeoutInput.red = true ∧
    (takeStableMeasurement timeoutInput.polls).isSome = true ∧
    (tick timeoutMachine timeoutInput).state ≠ .MEASURING ∧
    (tick timeoutMachine timeoutInput).state = .WAITING_CONFIRMATION := by
  exact ⟨rfl, by decide, by decide, by decide, by decide, by decide⟩

/-- Claim C10 (amended): on the timeout tick, the sensor read after the
timeout handling does override the timeout — the requesting block ends
in MEASURING when both channels exceed the threshold — and the
measurement session then runs inside the same tick, so with a
successful window and connectivity the tick ends in
WAITING_CONFIRMATION rather than IDLE. -/
theorem finger_overrides_timeout (m : Machine) (i : TickInput) (hr spo2 : ℚ)
    (hs : m.state = .REQUESTING)
    (_hto : sub32 i.now m.requestStartTime ≥ REQUEST_TIMEOUT)
    (hf : fingerPresent i.ir i.red = true)
    (hc : i.connected = true)
    (hm : takeStableMeasurement i.polls = some (hr, spo2)) :
    (requestingPhase m i).state = .MEASURING ∧
    (tick m i).state = .WAITING_CONFIRMATION := by
  refine ⟨requestingPhase_finger m i hs hf, ?_⟩
  obtain ⟨hr1, hr2, hr3, hr4⟩ := replayPhase_fields m i
  have hsch : schedulePhase (replayPhase m i) i = replayPhase m i :=
    schedulePhase_not_idle _ i (by simp [hr1, hs])
  have hreq : (requestingPhase (replayPhase m i) i).state = .MEASURING :=
    requestingPhase_finger _ i (by rw [hr1, hs]) hf
  unfold tick
  rw [hsch]
  exact measuringPhase_some_online _ i hr spo2 hreq hm hc

-- ===== concrete reading on goodPolls, shared by witnesses =====

set_option maxHeartbeats 2000000 in
lemma goodPolls_reading :
    takeStableMeasurement goodPolls = some (6862121 / 500000, 85) := by
  simp only [takeStableMeasurement, goodPolls, measureLoop, measureFinish,
    calculateSpO2, HR_SCALE, SAMPLE_TIME, DISCARD_TIME, FINGER_THRESHOLD]
  norm_num

/-- Witness for the amended C5: the concrete cascade tick. -/
theorem tick_cascades_idle_to_waiting_witness :
    idleMachine.state = .IDLE ∧
    sub32 cascadeInput.now idleMachine.lastMeasurementTime ≥ idleMachine.measurementInterval ∧
    fingerPresent cascadeInput.ir cascadeInput.red = true ∧
    cascadeInput.connected = true ∧
    takeStableMeasurement cascadeInput.polls = some (6862121 / 500000, 85) ∧
    (tick idleMachine cascadeInput).state = .WAITING_CONFIRMATION :=
  ⟨rfl, by decide, by decide, rfl, goodPolls_reading,
    tick_cascades_idle_to_waiting idleMachine cascadeInput (6862121 / 500000) 85 rfl
      (by decide) (by decide) rfl goodPolls_reading⟩

/-- Witness for the amended C10: the concrete timeout-override tick. -/
theorem finger_overrides_timeout_witness :
    timeoutMachine.state = .REQUESTING ∧
    sub32 timeoutInput.now timeoutMachine.requestStartTime ≥ REQUEST_TIMEOUT ∧
    fingerPresent timeoutInput.ir timeoutInput.red = true ∧
    timeoutInput.connected = true ∧
    takeStableMeasurement timeoutInput.polls = some (6862121 / 500000, 85) ∧
    ((requestingPhase timeoutMachine timeoutInput).state = .MEASURING ∧
     (tick timeoutMachine timeoutInput).state = .WAITING_CONFIRMATION) :=
  ⟨rfl, by decide, by decide, rfl, goodPolls_reading,
    finger_overrides_timeout timeoutMachine timeoutInput (6862121 / 500000) 85 rfl
      (by decide) (by decide) rfl goodPolls_reading⟩

-- ===== digit and formatting lemmas =====

lemma digitChar_isDigit (m : Nat) (h : m < 10) : (Nat.digitChar m).isDigit = true := by
  interval_cases m <;> decide

lemma natDigits_ne_nil (n : Nat) : natDigits n ≠ [] := by
  unfold natDigits
  split
  · simp
  · simp

lemma natDigits_all_digits (n : Nat) : ∀ c ∈ natDigits n, c.isDigit = true := by
  induction n using Nat.strong_induction_on with
  | _ n ih =>
    unfold natDigits
    split
    · rename_i h
      intro c hc
      simp only [List.mem_singleton] at hc
      subst hc
      exact digitChar_isDigit n h
    · rename_i h
      intro c hc
      rcases List.mem_append.mp hc with hc | hc
      · exact ih (n / 10) (Nat.div_lt_self (by omega) (by omega)) c hc
      · simp only [List.mem_singleton] at hc
        subst hc
        exact digitChar_isDigit (n % 10) (Nat.mod_lt _ (by omega))

lemma fmt1_decomp (x : ℚ) (hx : 0 ≤ x) :
    ∃ a d, (fmt1 x).toList = a ++ ['.', d] ∧ a ≠ [] ∧
      (∀ c ∈ a, c.isDigit = true) ∧ d.isDigit = true := by
  have h0 : (0 : Int) ≤ round (x * 10) := by
    rw [round_eq]
    refine Int.le_floor.mpr ?_
    push_cast
    linarith
  refine ⟨natDigits ((round (x * 10)).natAbs / 10),
    Nat.digitChar ((round (x * 10)).natAbs % 10), ?_, natDigits_ne_nil _,
    natDigits_all_digits _, digitChar_isDigit _ (Nat.mod_lt _ (by omega))⟩
  show ((if round (x * 10) < 0 then "-" else "") ++
      String.mk (natDigits ((round (x * 10)).natAbs / 10) ++
        ['.', Nat.digitChar ((round (x * 10)).natAbs % 10)])).toList = _
  rw [if_neg (by omega : ¬ round (x * 10) < 0)]
  simp [String.toList, String.data_append]

-- ===== nonnegativity of produced readings =====

lemma calculateSpO2_nonneg (ir red : Int) : 0 ≤ calculateSpO2 ir red := by
  simp only [calculateSpO2]
  split_ifs <;> linarith

lemma measureFinish_nonneg (c : Nat) (h s hr spo2 : ℚ)
    (hh : 0 ≤ h) (hs : 0 ≤ s)
    (heq : measureFinish c h s = some (hr, spo2)) :
    0 ≤ hr ∧ 0 ≤ spo2 := by
  unfold measureFinish at heq
  split at heq
  · exact absurd heq (by simp)
  · simp only [Option.some.injEq, Prod.mk.injEq] at heq
    obtain ⟨h1, h2⟩ := heq
    rw [← h1, ← h2]
    constructor <;> apply div_nonneg <;> first | assumption | positivity

lemma measureLoop_nonneg (polls : List Poll) :
    ∀ (c : Nat) (h s hr spo2 : ℚ), 0 ≤ h → 0 ≤ s →
      measureLoop polls c h s = some (hr, spo2) → 0 ≤ hr ∧ 0 ≤ spo2 := by
  induction polls with
  | nil =>
    intro c h s hr spo2 hh hs heq
    exact measureFinish_nonneg c h s hr spo2 hh hs heq
  | cons p ps ih =>
    intro c h s hr spo2 hh hs heq
    rw [measureLoop] at heq
    split at heq
    · split at heq
      · exact absurd heq (by simp)
      · rename_i hnab
        push_neg at hnab
        split at heq
        · refine ih _ _ _ _ _ ?_ ?_ heq
          · apply add_nonneg hh
            apply mul_nonneg
            · have h0 : (0 : Int) ≤ p.ir :=
                le_trans (by norm_num [FINGER_THRESHOLD]) hnab.1
              exact_mod_cast h0
            · norm_num [HR_SCALE]
          · exact add_nonneg hs (calculateSpO2_nonneg p.ir p.red)
        · exact ih _ _ _ _ _ hh hs heq
    · exact measureFinish_nonneg c h s hr spo2 hh hs heq

-- ===== C9 =====

/-- Claim C9: every reading produced by a successful measurement is
published as exactly the text made of the heart-rate rendered to one
decimal place, a single comma, and the SpO2 rendered to one decimal
place — digits, one dot and one trailing digit on each side, exactly
one comma, and no other characters. -/
theorem payload_format_spec (polls : List Poll) (hr spo2 : ℚ)
    (hm : takeStableMeasurement polls = some (hr, spo2)) :
    ∃ a b d1 d2,
      (makePayload hr spo2).toList = a ++ ['.', d1] ++ [','] ++ b ++ ['.', d2] ∧
      a ≠ [] ∧ b ≠ [] ∧
      (∀ c ∈ a, c.isDigit = true) ∧ (∀ c ∈ b, c.isDigit = true) ∧
      d1.isDigit = true ∧ d2.isDigit = true ∧
      (makePayload hr spo2).toList.count ',' = 1 := by
  have hnn := measureLoop_nonneg polls 0 0 0 hr spo2 le_rfl le_rfl hm
  obtain ⟨a, d1, ha, hane, had, hd1⟩ := fmt1_decomp hr hnn.1
  obtain ⟨b, d2, hb, hbne, hbd, hd2⟩ := fmt1_decomp spo2 hnn.2
  have hmp : (makePayload hr spo2).toList =
      (fmt1 hr).toList ++ ',' :: (fmt1 spo2).toList := by
    simp [makePayload, String.toList, String.data_append]
  have key : (makePayload hr spo2).toList = a ++ ['.', d1] ++ [','] ++ b ++ ['.', d2] := by
    rw [hmp, ha, hb]
    simp [List.append_assoc]
  refine ⟨a, b, d1, d2, key, hane, hbne, had, hbd, hd1, hd2, ?_⟩
  have hca : a.count ',' = 0 := List.count_eq_zero.mpr (fun hmem =>
    absurd (had ',' hmem) (by decide))
  have hcb : b.count ',' = 0 := List.count_eq_zero.mpr (fun hmem =>
    absurd (hbd ',' hmem) (by decide))
  have hd1ne : (d1 == ',') = false := beq_eq_false_iff_ne.mpr (fun he => by
    rw [he] at hd1
    exact absurd hd1 (by decide))
  have hd2ne : (d2 == ',') = false := beq_eq_false_iff_ne.mpr (fun he => by
    rw [he] at hd2
    exact absurd hd2 (by decide))
  rw [key]
  simp [List.count_append, List.count_cons, hca, hcb, hd1ne, hd2ne,
    (by decide : (('.' : Char) == ',') = false),
    (by decide : ((',' : Char) == ',') = true)]

/-- Witness for C9 at the concrete reading produced by goodPolls. -/
theorem payload_format_spec_witness :
    takeStableMeasurement goodPolls = some (6862121 / 500000, 85) ∧
    (∃ a b d1 d2,
      (makePayload (6862121 / 500000) 85).toList = a ++ ['.', d1] ++ [','] ++ b ++ ['.', d2] ∧
      a ≠ [] ∧ b ≠ [] ∧
      (∀ c ∈ a, c.isDigit = true) ∧ (∀ c ∈ b, c.isDigit = true) ∧
      d1.isDigit = true ∧ d2.isDigit = true ∧
      (makePayload (6862121 / 500000) 85).toList.count ',' = 1) :=
  ⟨goodPolls_reading,
    payload_format_spec goodPolls (6862121 / 500000) 85 goodPolls_reading⟩

end HeartSpo2
